import Mathlib

/-!
# go-aws / dynamodb: a shallow embedding of `dynamodb.go` and `params.go`

The Go package is a thin layer over the DynamoDB client.  Its pure parts
(attribute marshalling, key building, request construction, the parameter
binder) are embedded as Lean functions.

* Go maps become association lists with unique keys (`AList`) behind an
  `Option`, where `none` is the nil map.  Every theorem quantifies over all
  such lists, hence over every iteration order of `range`.
* Pointers become `Option`; `none` is the nil pointer.
* A run-time panic becomes `Except.error`.
* The DynamoDB service client and the float routines of the standard library
  are parameters.
-/

namespace Dynamodb

/-! ## Values -/

/-- Bit pattern of a Go `float32`. -/
structure Float32 where
  bits : Nat
  deriving DecidableEq, Repr

/-- Bit pattern of a Go `float64`. -/
structure Float64 where
  bits : Nat
  deriving DecidableEq, Repr

/-- Dynamic value held by a Go `interface{}`.  `other` stands for a value of any
dynamic type the package does not inspect (slices, maps, structs, ...); it
carries the name of its type and its `%v` rendering. -/
inductive GoValue where
  | nil
  | str (s : String)
  | int (n : Int)
  | int64 (n : Int)
  | float32 (x : Float32)
  | float64 (x : Float64)
  | bool (b : Bool)
  | other (typeName : String) (rendering : String)
  deriving DecidableEq, Repr

/-- Float routines of the Go standard library, taken as a parameter:
`strconv.FormatFloat(x, 'f', 4, bitSize)`, `strconv.ParseFloat(s, 64)` (with
`none` for a non-nil error) and the `%v` verb of `fmt` on floats. -/
structure FloatLib where
  FormatFloat_f4_32 : Float32 → String
  FormatFloat_f4_64 : Float64 → String
  ParseFloat_64 : String → Option Float64
  Sprint_32 : Float32 → String
  Sprint_64 : Float64 → String

deriving instance DecidableEq for Except

/-- A run-time panic of the Go program. -/
inductive Panic where
  | nilMapAssignment
  | nilPointerDereference
  deriving DecidableEq, Repr

/-! ## Go maps -/

/-- Go `map[string]V`; `none` is the nil map. -/
abbrev GoMap (V : Type) := Option (AList (fun _ : String => V))

namespace GoMap

variable {V : Type}

/-- Go `make(map[string]V)`. -/
def make : GoMap V := some ∅

/-- The entries visited by `for k, v := range m`; a nil map has none. -/
def range (m : GoMap V) : List (String × V) :=
  match m with
  | none => []
  | some l => l.entries.map (fun e => (e.1, e.2))

/-- Go `v, ok := m[k]`, with `none` for `ok == false`. -/
def find? (m : GoMap V) (k : String) : Option V :=
  match m with
  | none => none
  | some l => l.lookup k

/-- Go `m[k]`: the zero value `zero` when `k` is not a key. -/
def index (zero : V) (m : GoMap V) (k : String) : V :=
  (m.find? k).getD zero

/-- Go `m[k] = v`; assignment to an entry of a nil map panics. -/
def set (m : GoMap V) (k : String) (v : V) : Except Panic (GoMap V) :=
  match m with
  | none => .error .nilMapAssignment
  | some l => .ok (some (l.insert k v))

/-- Equality of two association lists is decided on their entries. -/
instance (priority := 2000) instDecidableEqEntries [DecidableEq V] :
    DecidableEq (AList (fun _ : String => V)) :=
  fun a b => decidable_of_iff (a.entries = b.entries) ⟨AList.ext, fun h => congrArg _ h⟩

/-- The name `k` is a key of `m`. -/
def HasKey (m : GoMap V) (k : String) : Prop := (m.find? k).isSome = true

instance (m : GoMap V) (k : String) : Decidable (m.HasKey k) := by
  unfold HasKey; infer_instance

end GoMap

/-! ## Data model of `dynamodb.go` -/

/-- The SDK type `dynamodb.AttributeValue`, with its ten fields in the order
`B, BOOL, BS, L, M, N, NS, NULL, S, SS`.  Pointer and slice fields are `Option`
with `none` for nil. -/
inductive AttributeValue where
  | mk (B : Option (List Nat)) (BOOL : Option Bool) (BS : Option (List (List Nat)))
      (L : Option (List (Option AttributeValue)))
      (M : Option (List (String × Option AttributeValue)))
      (N : Option String) (NS : Option (List (Option String))) (NULL : Option Bool)
      (S : Option String) (SS : Option (List (Option String)))

/-- Go `&dynamodb.AttributeValue{S: aws.String(s)}`. -/
def AttributeValue.ofS (s : String) : AttributeValue :=
  .mk none none none none none none none none (some s) none

/-- Go `&dynamodb.AttributeValue{N: aws.String(n)}`. -/
def AttributeValue.ofN (n : String) : AttributeValue :=
  .mk none none none none none (some n) none none none none

/-- Go `type Item map[string]*dynamodb.AttributeValue`. -/
abbrev Item := GoMap (Option AttributeValue)

/-- Go `type Attributes map[string]interface{}`. -/
abbrev Attributes := GoMap GoValue

/-- Go `Item` indexing `i[k]`; the zero value is the nil pointer. -/
abbrev Item.index (i : Item) (k : String) : Option AttributeValue := GoMap.index none i k

/-- Go `Attributes` indexing `a[k]`; the zero value is the nil interface. -/
abbrev Attributes.index (a : Attributes) (k : String) : GoValue := GoMap.index GoValue.nil a k

structure ItemBase where
  TableName : String
  HashKeyName : String
  HashKeyValue : GoValue
  SortKeyName : String
  SortKeyValue : GoValue
  ItemTypeName : String
  Attributes : Attributes

/-- Go `strconv.FormatInt(n, 10)`. -/
def FormatInt10 (n : Int) : String := n.repr

def getAttributeValue (fl : FloatLib) (input : GoValue) : Option AttributeValue :=
  match input with
  | .nil => none
  | .str s => some (.ofS s)
  | .int n => some (.ofN (FormatInt10 n))
  | .int64 n => some (.ofN (FormatInt10 n))
  | .float32 x => some (.ofN (fl.FormatFloat_f4_32 x))
  | .float64 x => some (.ofN (fl.FormatFloat_f4_64 x))
  | .bool _ => none
  | .other _ _ => none

/-- One iteration of the loop of `ToItem`. -/
def ToItem.step (fl : FloatLib) (i : AList (fun _ : String => Option AttributeValue))
    (kv : String × GoValue) : AList (fun _ : String => Option AttributeValue) :=
  match getAttributeValue fl kv.2 with
  | none => i
  | some av => i.insert kv.1 (some av)

/-- Go `func (a Attributes) ToItem() Item`.  The result map is made by `make`, so
the assignments in the loop cannot panic. -/
def Attributes.ToItem (fl : FloatLib) (a : Attributes) : Item :=
  some ((GoMap.range a).foldl (ToItem.step fl) ∅)

/-- The dynamic types `getAttributeValue` marshals. -/
def Supported (v : GoValue) : Prop :=
  match v with
  | .str _ | .int _ | .int64 _ | .float32 _ | .float64 _ => True
  | _ => False

instance (v : GoValue) : Decidable (Supported v) := by
  cases v <;> unfold Supported <;> infer_instance

/-- Go `func newItemBase(itemTypeName, tableName, hashKeyName, sortKeyName string,
hashKeyValue, sortKeyValue interface{}) ItemBase`.  The fields the literal does
not name hold their zero values. -/
def newItemBase (itemTypeName tableName hashKeyName sortKeyName : String)
    (hashKeyValue sortKeyValue : GoValue) : ItemBase :=
  let i : ItemBase :=
    { ItemTypeName := itemTypeName
      TableName := tableName
      HashKeyName := hashKeyName
      HashKeyValue := hashKeyValue
      SortKeyName := ""
      SortKeyValue := GoValue.nil
      Attributes := GoMap.make }
  if sortKeyName ≠ "" then
    { i with SortKeyName := sortKeyName, SortKeyValue := sortKeyValue }
  else
    i

structure ItemWriterInput where
  toItemBase : ItemBase

structure ItemReaderInput where
  IndexName : String
  toItemBase : ItemBase

def NewItemWriterInput (itemTypeName tableName hashKeyName sortKeyName : String)
    (hashKeyValue sortKeyValue : GoValue) : ItemWriterInput :=
  { toItemBase :=
      newItemBase itemTypeName tableName hashKeyName sortKeyName hashKeyValue sortKeyValue }

def NewItemReaderInput (itemTypeName tableName hashKeyName sortKeyName : String)
    (hashKeyValue sortKeyValue : GoValue) : ItemReaderInput :=
  { IndexName := ""
    toItemBase :=
      newItemBase itemTypeName tableName hashKeyName sortKeyName hashKeyValue sortKeyValue }

/-- Go `func (i Item) Merge(i2 Item)`: the receiver after the call, or the panic
of an assignment into a nil receiver. -/
def Item.Merge (i : Item) (i2 : Item) : Except Panic Item :=
  (GoMap.range i2).foldlM (fun acc kv => GoMap.set acc kv.1 kv.2) i

/-- The receiver of `Merge` after the call, for a non-nil receiver. -/
def mergeResult (m : AList (fun _ : String => Option AttributeValue)) (i2 : Item) :
    AList (fun _ : String => Option AttributeValue) :=
  (GoMap.range i2).foldl (fun acc kv => acc.insert kv.1 kv.2) m

/-- Go `func (i *ItemBase) GetKey() Item`.  The map is made by `make`, so the two
assignments cannot panic. -/
def ItemBase.GetKey (fl : FloatLib) (i : ItemBase) : Item :=
  let key : AList (fun _ : String => Option AttributeValue) := ∅
  let key :=
    match getAttributeValue fl i.HashKeyValue with
    | none => key
    | some av => key.insert i.HashKeyName (some av)
  let key :=
    match getAttributeValue fl i.SortKeyValue with
    | none => key
    | some av => key.insert i.SortKeyName (some av)
  some key

/-- Go `func (i *ItemBase) GetPuttableItem() Item`. -/
def ItemBase.GetPuttableItem (fl : FloatLib) (i : ItemBase) : Except Panic Item :=
  let item : Item :=
    match i.Attributes with
    | none => none
    | some a => Attributes.ToItem fl (some a)
  match item with
  | none => .ok (i.GetKey fl)
  | some m => Item.Merge (some m) (i.GetKey fl)

/-! ## Requests to the service client -/

/-- Go `error`; a nil error is `none : Option GoError`.  `service` is an error made
by the SDK, `errorf` one made by `fmt.Errorf` with the given text. -/
inductive GoError where
  | service (code : String) (message : String)
  | errorf (text : String)
  deriving DecidableEq, Repr

/-- The SDK type `dynamodb.GetItemInput`, with the two fields the package fills. -/
structure GetItemInput where
  TableName : Option String
  Key : Item

/-- The SDK type `dynamodb.GetItemOutput`. -/
structure GetItemOutput where
  ConsumedCapacity : Option String
  Item : Item

/-- The SDK type `dynamodb.PutItemInput`, with the three fields the package fills. -/
structure PutItemInput where
  Item : Item
  TableName : Option String
  ConditionExpression : Option String

/-- The SDK type `dynamodb.PutItemOutput`. -/
structure PutItemOutput where
  Attributes : Item
  ConsumedCapacity : Option String

/-- The `%v` verb of `fmt` on an `interface{}`. -/
def Sprintv (fl : FloatLib) (v : GoValue) : String :=
  match v with
  | .nil => "<nil>"
  | .str s => s
  | .int n => n.repr
  | .int64 n => n.repr
  | .float32 x => fl.Sprint_32 x
  | .float64 x => fl.Sprint_64 x
  | .bool b => if b then "true" else "false"
  | .other _ r => r

/-- The request `Get` builds (lines 227 to 230). -/
def ItemReaderInput.GetInput (fl : FloatLib) (i : ItemReaderInput) : GetItemInput :=
  { TableName := some i.toItemBase.TableName
    Key := i.toItemBase.GetKey fl }

/-- Go `func (i *ItemReaderInput) Get(sess) (*dynamodb.GetItemOutput, error)`, with
the service call `client.GetItem` given as the function `getItem`. -/
def ItemReaderInput.Get (fl : FloatLib)
    (getItem : GetItemInput → Option GetItemOutput × Option GoError)
    (i : ItemReaderInput) : Option GetItemOutput × Option GoError :=
  let input := i.GetInput fl
  match getItem input with
  | (_, some err) => (none, some err)
  | (result, none) =>
    let absent : Bool :=
      match result with
      | none => true
      | some r => r.Item.isNone
    if absent then
      (result, some (.errorf (i.toItemBase.ItemTypeName ++ " does not exist: ["
        ++ Sprintv fl i.toItemBase.HashKeyValue ++ ":"
        ++ Sprintv fl i.toItemBase.SortKeyValue ++ "]")))
    else
      (result, none)

/-- The request `CreateWithItem` builds (lines 178 to 184), or the panic of
`item.Merge`. -/
def ItemWriterInput.CreateWithItemInput (fl : FloatLib) (i : ItemWriterInput) (item : Item) :
    Except Panic PutItemInput :=
  match Item.Merge item (i.toItemBase.GetKey fl) with
  | .error p => .error p
  | .ok item =>
    let condition := "attribute_not_exists(id)"
    .ok { Item := item
          TableName := some i.toItemBase.TableName
          ConditionExpression := some condition }

/-- Go `CreateWithItem`, with `client.PutItem` given as the function `putItem`.
Both branches on `err` return `out, err` as received. -/
def ItemWriterInput.CreateWithItem (fl : FloatLib)
    (putItem : PutItemInput → Option PutItemOutput × Option GoError)
    (i : ItemWriterInput) (item : Item) :
    Except Panic (Option PutItemOutput × Option GoError) :=
  match i.CreateWithItemInput fl item with
  | .error p => .error p
  | .ok putInput =>
    match putItem putInput with
    | (out, some err) => .ok (out, some err)
    | (out, none) => .ok (out, none)

/-- The request `Create` sends: that of `CreateWithItem` on `GetPuttableItem()`. -/
def ItemWriterInput.CreateInput (fl : FloatLib) (i : ItemWriterInput) :
    Except Panic PutItemInput :=
  match i.toItemBase.GetPuttableItem fl with
  | .error p => .error p
  | .ok item => i.CreateWithItemInput fl item

/-- Go `func (i *ItemWriterInput) Create(sess)`. -/
def ItemWriterInput.Create (fl : FloatLib)
    (putItem : PutItemInput → Option PutItemOutput × Option GoError)
    (i : ItemWriterInput) : Except Panic (Option PutItemOutput × Option GoError) :=
  match i.toItemBase.GetPuttableItem fl with
  | .error p => .error p
  | .ok item => i.CreateWithItem fl putItem item

/-- The request `Upsert` builds (lines 199 to 202). -/
def ItemWriterInput.UpsertInput (fl : FloatLib) (i : ItemWriterInput) :
    Except Panic PutItemInput :=
  match i.toItemBase.GetPuttableItem fl with
  | .error p => .error p
  | .ok item =>
    .ok { Item := item
          TableName := some i.toItemBase.TableName
          ConditionExpression := none }

/-- Go `func (i *ItemWriterInput) Upsert(sess)`. -/
def ItemWriterInput.Upsert (fl : FloatLib)
    (putItem : PutItemInput → Option PutItemOutput × Option GoError)
    (i : ItemWriterInput) : Except Panic (Option PutItemOutput × Option GoError) :=
  match i.UpsertInput fl with
  | .error p => .error p
  | .ok putInput =>
    match putItem putInput with
    | (out, some err) => .ok (out, some err)
    | (out, none) => .ok (out, none)

/-! ## Standard-library routines used by `params.go` -/

/-- Go `url.Values`, a `map[string][]string`. -/
abbrev Values := GoMap (List String)

/-- Go `func (v Values) Get(key string) string`: the first value of `key`, or the
empty string when there is none. -/
def Values.Get (v : Values) (key : String) : String :=
  match GoMap.index [] v key with
  | [] => ""
  | x :: _ => x

/-- Value of a string of decimal digits; `none` when the string is empty or holds
another character (the syntax error of `strconv.ParseUint` in base 10). -/
def parseDigits (cs : List Char) : Option Nat :=
  match cs with
  | [] => none
  | _ :: _ =>
    cs.foldl
      (fun acc c =>
        match acc with
        | none => none
        | some n => if 48 ≤ c.toNat ∧ c.toNat ≤ 57 then some (10 * n + (c.toNat - 48)) else none)
      (some 0)

/-- Go `strconv.ParseInt(s, 10, bitSize)` for `bitSize` 32 or 64, with `none` for a
non-nil error: an optional sign, then decimal digits, and the value must lie in
the signed range of `bitSize` bits. -/
def ParseInt10 (s : String) (bitSize : Nat) : Option Int :=
  let cutoff : Nat := 2 ^ (bitSize - 1)
  match s.toList with
  | [] => none
  | c :: rest =>
    let neg : Bool := c = '-'
    let body : List Char := if c = '+' ∨ c = '-' then rest else c :: rest
    match parseDigits body with
    | none => none
    | some un =>
      if ¬ neg ∧ cutoff ≤ un then none
      else if neg ∧ cutoff < un then none
      else some (if neg then - (un : Int) else (un : Int))

/-- Go `strconv.ParseBool(str)`, with `none` for a non-nil error. -/
def ParseBool (str : String) : Option Bool :=
  if str = "1" ∨ str = "t" ∨ str = "T" ∨ str = "TRUE" ∨ str = "true" ∨ str = "True" then
    some true
  else if str = "0" ∨ str = "f" ∨ str = "F" ∨ str = "FALSE" ∨ str = "false"
      ∨ str = "False" then
    some false
  else
    none

/-- The SDK type `expression.UpdateBuilder`, as the list of its `SET` clauses
(attribute name, value), oldest first. -/
abbrev UpdateBuilder := List (String × GoValue)

/-- Go `expression.UpdateBuilder{}`. -/
def UpdateBuilder.empty : UpdateBuilder := []

/-- Go `ub.Set(expression.Name(name), expression.Value(value))`. -/
def UpdateBuilder.Set (ub : UpdateBuilder) (name : String) (value : GoValue) : UpdateBuilder :=
  ub ++ [(name, value)]

/-! ## `params.go` -/

structure RecordParamHelper where
  Params : Values
  Builder : Option UpdateBuilder
  Changed : Bool
  deriving DecidableEq

/-- The statements `if rph.Builder == nil { rph.Builder = &expression.UpdateBuilder{} }`,
`b := rph.Builder.Set(...)`, `rph.Builder = &b`, `rph.Changed = true`. -/
def RecordParamHelper.setClause (r : RecordParamHelper) (key : String) (value : GoValue) :
    RecordParamHelper :=
  let builder : UpdateBuilder :=
    match r.Builder with
    | none => UpdateBuilder.empty
    | some b => b
  { r with Builder := some (builder.Set key value), Changed := true }

/-- Go `func (rph *RecordParamHelper) AddToBuilder(key, val string)`; a nil
receiver is dereferenced. -/
def RecordParamHelper.AddToBuilder (rph : Option RecordParamHelper) (key val : String) :
    Except Panic (Option RecordParamHelper) :=
  match rph with
  | none => .error .nilPointerDereference
  | some r => .ok (some (r.setClause key (.str val)))

/-- Go `func (rph *RecordParamHelper) SetStringFromParam(loc *string, key string)`.
`loc` is the pointer with the content of its cell (`none` for nil); the result
is the content of the cell and the helper after the call. -/
def RecordParamHelper.SetStringFromParam (loc : Option String) (key : String)
    (rph : Option RecordParamHelper) :
    Except Panic (Option String × Option RecordParamHelper) :=
  match loc, rph with
  | some _, some r =>
    if key = "" ∨ r.Params = none then .ok (loc, rph)
    else
      match GoMap.find? r.Params key with
      | none => .ok (loc, rph)
      | some _ =>
        let val := Values.Get r.Params key
        .ok (some val, some (r.setClause key (.str val)))
  | _, _ => .ok (loc, rph)

def RecordParamHelper.SetFloatFromParam (fl : FloatLib) (loc : Option Float64) (key : String)
    (rph : Option RecordParamHelper) :
    Except Panic (Option Float64 × Option RecordParamHelper) :=
  match loc, rph with
  | some _, some r =>
    if key = "" ∨ r.Params = none then .ok (loc, rph)
    else
      match GoMap.find? r.Params key with
      | none => .ok (loc, rph)
      | some _ =>
        let val := Values.Get r.Params key
        match fl.ParseFloat_64 val with
        | none => .ok (loc, rph)
        | some f => .ok (some f, some (r.setClause key (.float64 f)))
  | _, _ => .ok (loc, rph)

/-- Go `func (rph *RecordParamHelper) SetIntFromParam(loc *int, key string)`.  The
branch for the empty value calls `rph.Builder.Set` without the nil check of the
other branches; `Set` has a value receiver, so a nil `Builder` is dereferenced. -/
def RecordParamHelper.SetIntFromParam (loc : Option Int) (key : String)
    (rph : Option RecordParamHelper) :
    Except Panic (Option Int × Option RecordParamHelper) :=
  match loc, rph with
  | some _, some r =>
    if key = "" ∨ r.Params = none then .ok (loc, rph)
    else
      match GoMap.find? r.Params key with
      | none => .ok (loc, rph)
      | some _ =>
        let val := Values.Get r.Params key
        if val = "" then
          match r.Builder with
          | none => .error .nilPointerDereference
          | some b =>
            .ok (loc, some { r with Builder := some (b.Set key (.str val)), Changed := true })
        else
          match ParseInt10 val 32 with
          | none => .ok (loc, rph)
          | some i => .ok (some i, some (r.setClause key (.int64 i)))
  | _, _ => .ok (loc, rph)

def RecordParamHelper.SetInt64FromParam (loc : Option Int) (key : String)
    (rph : Option RecordParamHelper) :
    Except Panic (Option Int × Option RecordParamHelper) :=
  match loc, rph with
  | some _, some r =>
    if key = "" ∨ r.Params = none then .ok (loc, rph)
    else
      match GoMap.find? r.Params key with
      | none => .ok (loc, rph)
      | some _ =>
        let val := Values.Get r.Params key
        match ParseInt10 val 64 with
        | none => .ok (loc, rph)
        | some i => .ok (some i, some (r.setClause key (.int64 i)))
  | _, _ => .ok (loc, rph)

def RecordParamHelper.SetBoolFromParam (loc : Option Bool) (key : String)
    (rph : Option RecordParamHelper) :
    Except Panic (Option Bool × Option RecordParamHelper) :=
  match loc, rph with
  | some _, some r =>
    if key = "" ∨ r.Params = none then .ok (loc, rph)
    else
      match GoMap.find? r.Params key with
      | none => .ok (loc, rph)
      | some _ =>
        let val := Values.Get r.Params key
        match ParseBool val with
        | none => .ok (loc, rph)
        | some b => .ok (some b, some (r.setClause key (.bool b)))
  | _, _ => .ok (loc, rph)

/-! ## Sample values -/

/-- A float library for instantiating theorems at concrete inputs.  It is not
IEEE arithmetic: a float is rendered as the decimal text of its bit pattern and
parsed back from such a text. -/
def sampleFloatLib : FloatLib :=
  { FormatFloat_f4_32 := fun x => Nat.repr x.bits
    FormatFloat_f4_64 := fun x => Nat.repr x.bits
    ParseFloat_64 := fun s => (parseDigits s.toList).map Float64.mk
    Sprint_32 := fun x => Nat.repr x.bits
    Sprint_64 := fun x => Nat.repr x.bits }

/-- A writer input for an item of table `users` with hash key `pk = "u1"`, sort
key `sk = 7` and no attribute. -/
def sampleWriter : ItemWriterInput :=
  NewItemWriterInput "User" "users" "pk" "sk" (.str "u1") (.int 7)

/-- A parameter set with one parameter `n` whose first value is `v`. -/
def sampleParams (v : String) : Values :=
  some (AList.insert "n" [v] ∅)

/-- A helper over `sampleParams v` with the given builder and `Changed` unset. -/
def sampleHelper (v : String) (b : Option UpdateBuilder) : RecordParamHelper :=
  { Params := sampleParams v, Builder := b, Changed := false }

end Dynamodb

namespace Dynamodb

/-! ## Lemmas on the loops over a map -/

theorem range_some {V : Type} (l : AList (fun _ : String => V)) :
    GoMap.range (some l) = l.entries.map (fun e => (e.1, e.2)) := rfl

theorem toItem_fold_lookup (fl : FloatLib) (k : String) :
    ∀ (l : List (Sigma (fun _ : String => GoValue))), l.NodupKeys →
      ∀ acc : AList (fun _ : String => Option AttributeValue),
        ((l.map (fun e => (e.1, e.2))).foldl (ToItem.step fl) acc).lookup k =
          match l.dlookup k with
          | none => acc.lookup k
          | some v =>
            match getAttributeValue fl v with
            | none => acc.lookup k
            | some av => some (some av) := by
  intro l
  induction l with
  | nil => intro _ acc; simp
  | cons e l ih =>
    intro hnd acc
    obtain ⟨ek, ev⟩ := e
    have hnd2 := List.nodupKeys_cons.mp hnd
    simp only [List.map_cons, List.foldl_cons]
    rw [ih hnd2.2]
    by_cases hk : k = ek
    · subst hk
      have hnone : l.dlookup k = none := List.dlookup_eq_none.mpr hnd2.1
      simp only [hnone, List.dlookup_cons_eq, ToItem.step]
      cases hg : getAttributeValue fl ev with
      | none => simp
      | some av => simp [AList.lookup_insert]
    · have hstep : (ToItem.step fl acc (ek, ev)).lookup k = acc.lookup k := by
        unfold ToItem.step
        cases hg : getAttributeValue fl ev with
        | none => simp
        | some av => simp [AList.lookup_insert_ne hk]
      rw [List.dlookup_cons_ne _ _ (fun h => hk h), hstep]

theorem toItem_find (fl : FloatLib) (a : Attributes) (k : String) :
    GoMap.find? (Attributes.ToItem fl a) k =
      match getAttributeValue fl (a.index k) with
      | none => none
      | some av => some (some av) := by
  cases a with
  | none => simp [Attributes.ToItem, GoMap.range, GoMap.find?, Attributes.index, GoMap.index,
      getAttributeValue]
  | some l =>
    simp only [Attributes.ToItem, GoMap.find?, range_some, Attributes.index, GoMap.index]
    rw [toItem_fold_lookup fl k l.entries l.nodupKeys ∅]
    simp only [AList.lookup, AList.lookup_empty]
    cases hl : l.entries.dlookup k with
    | none => simp [getAttributeValue]
    | some v => simp

theorem supported_iff (fl : FloatLib) (v : GoValue) :
    Supported v ↔ (getAttributeValue fl v).isSome = true := by
  cases v <;> simp [Supported, getAttributeValue]

theorem getAttributeValue_nil (fl : FloatLib) : getAttributeValue fl GoValue.nil = none := rfl

theorem merge_fold_ok :
    ∀ (l : List (String × Option AttributeValue))
      (m : AList (fun _ : String => Option AttributeValue)),
      l.foldlM (fun acc kv => GoMap.set acc kv.1 kv.2) (some m) =
        Except.ok (some (l.foldl (fun acc kv => acc.insert kv.1 kv.2) m)) := by
  intro l
  induction l with
  | nil => intro m; rfl
  | cons e l ih =>
    intro m
    simp only [List.foldlM_cons, List.foldl_cons, GoMap.set]
    exact ih _

theorem merge_fold_lookup (k : String) :
    ∀ (l : List (Sigma (fun _ : String => Option AttributeValue))), l.NodupKeys →
      ∀ m : AList (fun _ : String => Option AttributeValue),
        ((l.map (fun e => (e.1, e.2))).foldl (fun acc kv => acc.insert kv.1 kv.2) m).lookup k =
          match l.dlookup k with
          | none => m.lookup k
          | some v => some v := by
  intro l
  induction l with
  | nil => intro _ m; simp
  | cons e l ih =>
    intro hnd m
    obtain ⟨ek, ev⟩ := e
    have hnd2 := List.nodupKeys_cons.mp hnd
    simp only [List.map_cons, List.foldl_cons]
    rw [ih hnd2.2]
    by_cases hk : k = ek
    · subst hk
      have hnone : l.dlookup k = none := List.dlookup_eq_none.mpr hnd2.1
      simp [hnone, AList.lookup_insert]
    · rw [List.dlookup_cons_ne _ _ (fun h => hk h), AList.lookup_insert_ne hk]

theorem merge_some (m : AList (fun _ : String => Option AttributeValue)) (i2 : Item) :
    Item.Merge (some m) i2 = Except.ok (some (mergeResult m i2)) :=
  merge_fold_ok _ m

theorem mergeResult_lookup (m : AList (fun _ : String => Option AttributeValue)) (i2 : Item)
    (k : String) :
    (mergeResult m i2).lookup k =
      match GoMap.find? i2 k with
      | none => m.lookup k
      | some v => some v := by
  cases i2 with
  | none => simp [mergeResult, GoMap.range, GoMap.find?]
  | some l =>
    simp only [mergeResult, range_some, GoMap.find?]
    exact merge_fold_lookup k l.entries l.nodupKeys m

theorem merge_nil_empty (i2 : Item) (h : GoMap.range i2 = []) :
    Item.Merge none i2 = Except.ok none := by
  unfold Item.Merge
  rw [h]
  rfl

theorem merge_nil_nonempty (i2 : Item) (h : GoMap.range i2 ≠ []) :
    Item.Merge none i2 = Except.error Panic.nilMapAssignment := by
  unfold Item.Merge
  cases hr : GoMap.range i2 with
  | nil => exact absurd hr h
  | cons e l =>
    simp only [List.foldlM_cons, GoMap.set]
    rfl

theorem getKey_isSome (fl : FloatLib) (i : ItemBase) :
    ∃ key : AList (fun _ : String => Option AttributeValue), i.GetKey fl = some key :=
  ⟨_, rfl⟩

theorem getPuttableItem_ok (fl : FloatLib) (i : ItemBase) :
    ∃ m : AList (fun _ : String => Option AttributeValue),
      i.GetPuttableItem fl = Except.ok (some m) ∧
      (i.Attributes = none → some m = i.GetKey fl) ∧
      ∀ k, m.lookup k =
        match GoMap.find? (i.GetKey fl) k with
        | none => GoMap.find? (Attributes.ToItem fl i.Attributes) k
        | some v => some v := by
  obtain ⟨key, hkey⟩ := getKey_isSome fl i
  cases ha : i.Attributes with
  | none =>
    refine ⟨key, ?_, fun _ => hkey.symm, ?_⟩
    · simp [ItemBase.GetPuttableItem, ha, hkey]
    · intro k
      rw [hkey]
      cases hl : GoMap.find? (some key) k with
      | none =>
        simp only [GoMap.find?] at hl
        simp [GoMap.find?, hl, Attributes.ToItem, GoMap.range]
      | some v => simpa [GoMap.find?] using hl
  | some a =>
    refine ⟨mergeResult ((GoMap.range (some a)).foldl (ToItem.step fl) ∅) (i.GetKey fl), ?_,
      fun h => by simp at h, ?_⟩
    · simp only [ItemBase.GetPuttableItem, ha, Attributes.ToItem]
      exact merge_some _ _
    · intro k
      rw [mergeResult_lookup]
      rfl

theorem createWithItemInput_ok (fl : FloatLib) (w : ItemWriterInput)
    (m : AList (fun _ : String => Option AttributeValue)) :
    w.CreateWithItemInput fl (some m) =
      Except.ok { Item := some (mergeResult m (w.toItemBase.GetKey fl))
                  TableName := some w.toItemBase.TableName
                  ConditionExpression := some "attribute_not_exists(id)" } := by
  simp [ItemWriterInput.CreateWithItemInput, merge_some]

theorem parseInt10_empty (bitSize : Nat) : ParseInt10 "" bitSize = none := rfl

theorem setClause_spec (r : RecordParamHelper) (key : String) (v : GoValue) :
    (r.setClause key v).Builder = some (r.Builder.getD [] ++ [(key, v)]) ∧
    (r.setClause key v).Changed = true ∧ (r.setClause key v).Params = r.Params := by
  cases hb : r.Builder <;>
    simp [RecordParamHelper.setClause, hb, UpdateBuilder.Set, UpdateBuilder.empty]

/-! ## The claims -/

/-- C1. For every Attributes map `a` (nil included) and every name `k`: `k` is a key
of `a.ToItem()` exactly when `a[k]` is a non-nil string, int, int64, float32 or
float64; the entry is then `getAttributeValue(a[k])`; a string `s` is marshalled
to a value with only `S = s`, an integer `n` to a value with only `N` = the
base-10 text of `n`; every other value is marshalled to nil and left out.  The
function is total, so no error is raised. -/
theorem C1_ToItem_marshals_supported (fl : FloatLib) (a : Attributes) (k : String) :
    (GoMap.HasKey (Attributes.ToItem fl a) k ↔ Supported (a.index k)) ∧
    (GoMap.HasKey (Attributes.ToItem fl a) k →
      GoMap.find? (Attributes.ToItem fl a) k = some (getAttributeValue fl (a.index k))) ∧
    Item.index (Attributes.ToItem fl a) k = getAttributeValue fl (a.index k) ∧
    (∀ s : String, getAttributeValue fl (.str s) =
      some (.mk none none none none none none none none (some s) none)) ∧
    (∀ n : Int, getAttributeValue fl (.int n) =
      some (.mk none none none none none (some (FormatInt10 n)) none none none none)) ∧
    (∀ n : Int, getAttributeValue fl (.int64 n) =
      some (.mk none none none none none (some (FormatInt10 n)) none none none none)) ∧
    (∀ v : GoValue, ¬ Supported v → getAttributeValue fl v = none) ∧
    FormatInt10 (-42) = "-42" := by
  have hfind := toItem_find fl a k
  refine ⟨?_, ?_, ?_, fun _ => rfl, fun _ => rfl, fun _ => rfl, ?_, by decide⟩
  · rw [supported_iff fl]
    unfold GoMap.HasKey
    rw [hfind]
    cases getAttributeValue fl (a.index k) <;> simp
  · unfold GoMap.HasKey
    rw [hfind]
    cases getAttributeValue fl (a.index k) <;> simp
  · unfold Item.index GoMap.index
    rw [hfind]
    cases getAttributeValue fl (a.index k) <;> simp
  · intro v hv
    cases v <;> simp_all [Supported, getAttributeValue]

/-- C2, counterexample. `Merge` on a nil receiver and a one-entry `i2` panics at the
assignment `i[k] = v`: there is no state after the call in which `i` holds the
entry of `i2`. -/
theorem C2_counterexample :
    Item.Merge none (some (AList.insert "a" (some (AttributeValue.ofS "x")) ∅)) =
        Except.error Panic.nilMapAssignment ∧
      GoMap.HasKey (some (AList.insert "a" (some (AttributeValue.ofS "x")) ∅) : Item) "a" :=
  ⟨rfl, by decide⟩

/-- C2, amended. For every non-nil Item `i` and every Item `i2` (nil included),
`i.Merge(i2)` returns; afterwards `i[k]` is the entry of `i2` when `k` is a key of
`i2` and the entry `i` had before otherwise, and the keys of `i` are those of
either map.  On a nil `i` the call returns, leaving `i` nil, exactly when `i2`
has no entry, and panics otherwise.  `i2` is only read. -/
theorem C2_Merge_last_writer_wins (m : AList (fun _ : String => Option AttributeValue))
    (i2 : Item) :
    (∃ m2 : AList (fun _ : String => Option AttributeValue),
      Item.Merge (some m) i2 = Except.ok (some m2) ∧
      (∀ k v, GoMap.find? i2 k = some v → GoMap.find? (some m2) k = some v) ∧
      (∀ k, GoMap.find? i2 k = none → GoMap.find? (some m2) k = GoMap.find? (some m) k) ∧
      (∀ k, GoMap.HasKey (some m2) k ↔ (GoMap.HasKey (some m) k ∨ GoMap.HasKey i2 k))) ∧
    (GoMap.range i2 = [] → Item.Merge none i2 = Except.ok none) ∧
    (GoMap.range i2 ≠ [] → Item.Merge none i2 = Except.error Panic.nilMapAssignment) := by
  refine ⟨⟨mergeResult m i2, merge_some m i2, ?_, ?_, ?_⟩, ?_, ?_⟩
  · intro k v h
    simp only [GoMap.find?]
    rw [mergeResult_lookup, h]
  · intro k h
    simp only [GoMap.find?]
    rw [mergeResult_lookup, h]
  · intro k
    unfold GoMap.HasKey
    simp only [GoMap.find?]
    rw [mergeResult_lookup]
    cases h : GoMap.find? i2 k <;> simp [GoMap.find?] at h ⊢ <;> simp [h]
  · exact merge_nil_empty i2
  · exact merge_nil_nonempty i2

/-- C4, counterexample. `newItemBase` with the sort key name `sk` and a nil sort
key value returns an ItemBase whose SortKeyName is non-empty and whose
SortKeyValue is nil. -/
theorem C4_counterexample :
    ¬ ((newItemBase "User" "users" "pk" "sk" (.str "u1") .nil).SortKeyName ≠ "" ↔
        (newItemBase "User" "users" "pk" "sk" (.str "u1") .nil).SortKeyValue ≠ .nil) := by
  decide

/-- C4, amended. For all arguments of `newItemBase` (and so of `NewItemWriterInput`
and `NewItemReaderInput`): with an empty `sortKeyName` both SortKeyName and
SortKeyValue are absent; with a non-empty one both are stored as passed.  Hence a
non-nil SortKeyValue always comes with a non-empty SortKeyName, and the two are
both present or both absent exactly when `sortKeyName` is empty or
`sortKeyValue` is non-nil. -/
theorem C4_newItemBase_sort_key (t tb hk sk : String) (hv sv : GoValue) :
    (sk = "" → (newItemBase t tb hk sk hv sv).SortKeyName = "" ∧
      (newItemBase t tb hk sk hv sv).SortKeyValue = .nil) ∧
    (sk ≠ "" → (newItemBase t tb hk sk hv sv).SortKeyName = sk ∧
      (newItemBase t tb hk sk hv sv).SortKeyValue = sv) ∧
    ((newItemBase t tb hk sk hv sv).SortKeyValue ≠ .nil →
      (newItemBase t tb hk sk hv sv).SortKeyName ≠ "") ∧
    (((newItemBase t tb hk sk hv sv).SortKeyName ≠ "" ↔
        (newItemBase t tb hk sk hv sv).SortKeyValue ≠ .nil) ↔ (sk = "" ∨ sv ≠ .nil)) ∧
    (NewItemWriterInput t tb hk sk hv sv).toItemBase = newItemBase t tb hk sk hv sv ∧
    (NewItemReaderInput t tb hk sk hv sv).toItemBase = newItemBase t tb hk sk hv sv ∧
    (newItemBase t tb hk sk hv sv).HashKeyName = hk := by
  by_cases h : sk = ""
  · simp [newItemBase, NewItemWriterInput, NewItemReaderInput, h]
  · simp [newItemBase, NewItemWriterInput, NewItemReaderInput, h]

/-- C5. For every ItemBase whose HashKeyValue is a supported scalar: with a nil
SortKeyValue, `GetKey()` is exactly the one-entry map
`{HashKeyName: getAttributeValue(HashKeyValue)}`; with a supported SortKeyValue
and a SortKeyName other than HashKeyName it is exactly the two-entry map that
adds `SortKeyName: getAttributeValue(SortKeyValue)`.  For every ItemBase built
by `newItemBase` with an empty `sortKeyName` the key holds at most the hash
entry, whatever `sortKeyValue` was passed. -/
theorem C5_GetKey_skips_absent_sort_key (fl : FloatLib) (i : ItemBase)
    (hh : Supported i.HashKeyValue) :
    (i.SortKeyValue = .nil →
      i.GetKey fl =
        some (AList.singleton i.HashKeyName (getAttributeValue fl i.HashKeyValue))) ∧
    (Supported i.SortKeyValue → i.SortKeyName ≠ i.HashKeyName →
      ∃ m : AList (fun _ : String => Option AttributeValue),
        i.GetKey fl = some m ∧
        m = AList.insert i.SortKeyName (getAttributeValue fl i.SortKeyValue)
              (AList.singleton i.HashKeyName (getAttributeValue fl i.HashKeyValue)) ∧
        m.keys = [i.SortKeyName, i.HashKeyName] ∧
        m.lookup i.HashKeyName = some (getAttributeValue fl i.HashKeyValue) ∧
        m.lookup i.SortKeyName = some (getAttributeValue fl i.SortKeyValue)) ∧
    (∀ (t tb hk : String) (hv sv : GoValue),
      (newItemBase t tb hk "" hv sv).GetKey fl =
        match getAttributeValue fl hv with
        | none => some ∅
        | some av => some (AList.singleton hk (some av))) := by
  obtain ⟨av, hav⟩ := Option.isSome_iff_exists.mp ((supported_iff fl _).mp hh)
  refine ⟨?_, ?_, ?_⟩
  · intro hs
    simp [ItemBase.GetKey, hs, hav, getAttributeValue_nil]
  · intro hs hne
    obtain ⟨sv, hsv⟩ := Option.isSome_iff_exists.mp ((supported_iff fl _).mp hs)
    refine ⟨AList.insert i.SortKeyName (getAttributeValue fl i.SortKeyValue)
      (AList.singleton i.HashKeyName (getAttributeValue fl i.HashKeyValue)), ?_, rfl, ?_, ?_, ?_⟩
    · simp [ItemBase.GetKey, hav, hsv]
    · simp [AList.keys_insert, hne, Ne.symm hne]
    · rw [AList.lookup_insert_ne (Ne.symm hne), ← AList.insert_empty, AList.lookup_insert]
    · rw [AList.lookup_insert]
  · intro t tb hk hv sv
    cases hg : getAttributeValue fl hv <;>
      simp [ItemBase.GetKey, newItemBase, hg, getAttributeValue_nil]

/-- C5, witness: the theorem at an ItemBase with hash key `pk = "u1"` and no sort
key value. -/
theorem C5_witness :
    Supported (newItemBase "User" "users" "pk" "sk" (.str "u1") .nil).HashKeyValue ∧
      (newItemBase "User" "users" "pk" "sk" (.str "u1") .nil).GetKey sampleFloatLib =
        some (AList.singleton "pk" (some (AttributeValue.ofS "u1"))) :=
  ⟨by decide,
    (C5_GetKey_skips_absent_sort_key sampleFloatLib
      (newItemBase "User" "users" "pk" "sk" (.str "u1") .nil) (by decide)).1 rfl⟩

/-- C6. With `client.GetItem` a function from the request to a (result, error) pair:
`Get` returns a non-nil error exactly when the client returned an error, a nil
result or a result with a nil Item.  When the client errs `Get` returns a nil
output and the client's error; when the item is absent it returns the client's
result and the error with the text
`<ItemTypeName> does not exist: [<HashKeyValue>:<SortKeyValue>]` (both values
rendered by `%v`); otherwise it returns the client's result and a nil error.
The request carries TableName and `Key = GetKey()`, and `Get` depends on the
client through the answer to that request only. -/
theorem C6_Get_errors (fl : FloatLib)
    (getItem : GetItemInput → Option GetItemOutput × Option GoError) (i : ItemReaderInput) :
    ((i.Get fl getItem).2 ≠ none ↔
      ((getItem (i.GetInput fl)).2 ≠ none ∨ (getItem (i.GetInput fl)).1 = none ∨
        ∃ r, (getItem (i.GetInput fl)).1 = some r ∧ r.Item = none)) ∧
    (∀ e, (getItem (i.GetInput fl)).2 = some e → i.Get fl getItem = (none, some e)) ∧
    ((getItem (i.GetInput fl)).2 = none →
      ((getItem (i.GetInput fl)).1 = none ∨
        ∃ r, (getItem (i.GetInput fl)).1 = some r ∧ r.Item = none) →
      i.Get fl getItem =
        ((getItem (i.GetInput fl)).1,
          some (GoError.errorf (i.toItemBase.ItemTypeName ++ " does not exist: ["
            ++ Sprintv fl i.toItemBase.HashKeyValue ++ ":"
            ++ Sprintv fl i.toItemBase.SortKeyValue ++ "]")))) ∧
    ((getItem (i.GetInput fl)).2 = none →
      ∀ r m, (getItem (i.GetInput fl)).1 = some r → r.Item = some m →
        i.Get fl getItem = (some r, none)) ∧
    (i.GetInput fl).TableName = some i.toItemBase.TableName ∧
    (i.GetInput fl).Key = i.toItemBase.GetKey fl ∧
    (∀ g : GetItemInput → Option GetItemOutput × Option GoError,
      g (i.GetInput fl) = getItem (i.GetInput fl) → i.Get fl g = i.Get fl getItem) ∧
    Sprintv fl GoValue.nil = "<nil>" ∧ (∀ s, Sprintv fl (.str s) = s) ∧
    (∀ n : Int, Sprintv fl (.int n) = n.repr) := by
  refine ⟨?_, ?_, ?_, ?_, rfl, rfl, ?_, rfl, fun _ => rfl, fun _ => rfl⟩
  · rcases h : getItem (i.GetInput fl) with ⟨res, err⟩
    cases err with
    | some e => simp [ItemReaderInput.Get, h]
    | none =>
      cases res with
      | none => simp [ItemReaderInput.Get, h]
      | some r => cases hr : r.Item <;> simp [ItemReaderInput.Get, h, hr]
  · intro e he
    rcases h : getItem (i.GetInput fl) with ⟨res, err⟩
    rw [h] at he
    simp only at he
    subst he
    simp [ItemReaderInput.Get, h]
  · intro he habs
    rcases h : getItem (i.GetInput fl) with ⟨res, err⟩
    rw [h] at he habs
    simp only at he habs
    subst he
    cases res with
    | none => simp [ItemReaderInput.Get, h]
    | some r =>
      rcases habs with habs | ⟨r2, hr2, hitem⟩
      · simp at habs
      · simp only [Option.some.injEq] at hr2
        subst hr2
        simp [ItemReaderInput.Get, h, hitem]
  · intro he r m hr hitem
    rcases h : getItem (i.GetInput fl) with ⟨res, err⟩
    rw [h] at he hr
    simp only at he hr
    subst he hr
    simp [ItemReaderInput.Get, h, hitem]
  · intro g hg
    simp only [ItemReaderInput.Get, hg]

/-- C7, the code at the failing input. For every ItemWriterInput the put request of
`Create` is built without a panic, carries the input's table and an Item with
the entries of `GetPuttableItem()`, and `Create` returns what the client answers
to it; but its condition expression is the constant `attribute_not_exists(id)`
whatever HashKeyName is.  For the sample input, whose hash key is named `pk`,
the condition is not `attribute_not_exists(pk)`. -/
theorem C7_Create_condition_is_constant (fl : FloatLib) (w : ItemWriterInput) :
    (∃ (req : PutItemInput) (m : AList (fun _ : String => Option AttributeValue)),
      w.CreateInput fl = Except.ok req ∧
      w.toItemBase.GetPuttableItem fl = Except.ok (some m) ∧
      (∀ k, GoMap.find? req.Item k = m.lookup k) ∧
      req.TableName = some w.toItemBase.TableName ∧
      req.ConditionExpression = some "attribute_not_exists(id)" ∧
      ∀ putItem : PutItemInput → Option PutItemOutput × Option GoError,
        w.Create fl putItem = Except.ok (putItem req)) ∧
    sampleWriter.toItemBase.HashKeyName = "pk" ∧
    (∃ req : PutItemInput, sampleWriter.CreateInput fl = Except.ok req ∧
      req.ConditionExpression ≠
        some ("attribute_not_exists(" ++ sampleWriter.toItemBase.HashKeyName ++ ")")) := by
  have key : ∀ w : ItemWriterInput,
      ∃ (req : PutItemInput) (m : AList (fun _ : String => Option AttributeValue)),
        w.CreateInput fl = Except.ok req ∧
        w.toItemBase.GetPuttableItem fl = Except.ok (some m) ∧
        (∀ k, GoMap.find? req.Item k = m.lookup k) ∧
        req.TableName = some w.toItemBase.TableName ∧
        req.ConditionExpression = some "attribute_not_exists(id)" ∧
        ∀ putItem : PutItemInput → Option PutItemOutput × Option GoError,
          w.Create fl putItem = Except.ok (putItem req) := by
    intro w
    obtain ⟨m, hm, _, hlook⟩ := getPuttableItem_ok fl w.toItemBase
    refine ⟨PutItemInput.mk (some (mergeResult m (w.toItemBase.GetKey fl)))
      (some w.toItemBase.TableName) (some "attribute_not_exists(id)"),
      m, ?_, hm, ?_, rfl, rfl, ?_⟩
    · simp only [ItemWriterInput.CreateInput, hm]
      exact createWithItemInput_ok fl w m
    · intro k
      simp only [GoMap.find?]
      rw [mergeResult_lookup, hlook k]
      cases GoMap.find? (w.toItemBase.GetKey fl) k <;> rfl
    · intro putItem
      simp only [ItemWriterInput.Create, hm, ItemWriterInput.CreateWithItem,
        createWithItemInput_ok]
      rcases hp : putItem _ with ⟨out, err⟩
      cases err <;> rfl
  refine ⟨key w, by decide, ?_⟩
  obtain ⟨req, _, hreq, _, _, _, hcond, _⟩ := key sampleWriter
  refine ⟨req, hreq, ?_⟩
  rw [hcond]
  decide

/-- C9. For every ItemBase, `GetPuttableItem()` returns a non-nil Item that is
`Attributes.ToItem()` overlaid with `GetKey()`: an entry of `GetKey()` is in the
result with the key's value, also when Attributes has an entry of that name;
any other name has the entry of `Attributes.ToItem()`, that is the marshalled
attribute; with nil Attributes the result is `GetKey()` itself, and with
Attributes holding no supported value it has exactly the entries of
`GetKey()`.  `Upsert` sends this Item, and `Create` sends an Item with the same
entries. -/
theorem C9_GetPuttableItem_key_wins (fl : FloatLib) (i : ItemBase) :
    ∃ m : AList (fun _ : String => Option AttributeValue),
      i.GetPuttableItem fl = Except.ok (some m) ∧
      (∀ k v, GoMap.find? (i.GetKey fl) k = some v → m.lookup k = some v) ∧
      (∀ k, GoMap.find? (i.GetKey fl) k = none →
        m.lookup k = GoMap.find? (Attributes.ToItem fl i.Attributes) k ∧
        Item.index (some m) k = getAttributeValue fl (i.Attributes.index k)) ∧
      (i.Attributes = none → some m = i.GetKey fl) ∧
      ((∀ k, ¬ Supported (i.Attributes.index k)) →
        ∀ k, m.lookup k = GoMap.find? (i.GetKey fl) k) ∧
      (∀ w : ItemWriterInput, w.toItemBase = i →
        w.UpsertInput fl =
          Except.ok { Item := some m, TableName := some i.TableName,
                      ConditionExpression := none } ∧
        (∀ putItem : PutItemInput → Option PutItemOutput × Option GoError,
          w.Upsert fl putItem =
            Except.ok (putItem { Item := some m, TableName := some i.TableName,
                                 ConditionExpression := none })) ∧
        ∃ req : PutItemInput, w.CreateInput fl = Except.ok req ∧
          ∀ k, GoMap.find? req.Item k = m.lookup k) := by
  obtain ⟨m, hm, hnil, hlook⟩ := getPuttableItem_ok fl i
  refine ⟨m, hm, ?_, ?_, hnil, ?_, ?_⟩
  · intro k v hk
    rw [hlook k, hk]
  · intro k hk
    have h1 : m.lookup k = GoMap.find? (Attributes.ToItem fl i.Attributes) k := by
      rw [hlook k, hk]
    refine ⟨h1, ?_⟩
    show (GoMap.find? (some m) k).getD none = _
    simp only [GoMap.find?]
    rw [h1, toItem_find]
    cases getAttributeValue fl (i.Attributes.index k) <;> rfl
  · intro hno k
    rw [hlook k]
    cases hk : GoMap.find? (i.GetKey fl) k with
    | some v => rfl
    | none =>
      have hnone : getAttributeValue fl (i.Attributes.index k) = none := by
        have := (supported_iff fl (i.Attributes.index k)).not.mp (hno k)
        simpa using this
      simp only [toItem_find, hnone]
  · intro w hw
    subst hw
    refine ⟨?_, ?_, ?_⟩
    · simp [ItemWriterInput.UpsertInput, hm]
    · intro putItem
      simp only [ItemWriterInput.Upsert, ItemWriterInput.UpsertInput, hm]
      rcases hp : putItem _ with ⟨out, err⟩
      cases err <;> rfl
    · refine ⟨PutItemInput.mk (some (mergeResult m (w.toItemBase.GetKey fl)))
      (some w.toItemBase.TableName) (some "attribute_not_exists(id)"),
        ?_, ?_⟩
      · simp only [ItemWriterInput.CreateInput, hm]
        exact createWithItemInput_ok fl w m
      · intro k
        simp only [GoMap.find?]
        rw [mergeResult_lookup, hlook k]
        cases GoMap.find? (w.toItemBase.GetKey fl) k <;> rfl

/-- C3, counterexample. The parameter `n` is present with the empty string as its
first value, which parses neither as a 32-bit nor as a 64-bit integer; yet
`SetIntFromParam` on a helper with an empty builder does not leave the state as
it was. -/
theorem C3_counterexample :
    GoMap.HasKey (sampleHelper "" (some [])).Params "n" ∧
      ParseInt10 (Values.Get (sampleHelper "" (some [])).Params "n") 32 = none ∧
      ParseInt10 (Values.Get (sampleHelper "" (some [])).Params "n") 64 = none ∧
      RecordParamHelper.SetIntFromParam (some 7) "n" (some (sampleHelper "" (some []))) ≠
        Except.ok (some 7, some (sampleHelper "" (some []))) := by
  decide

/-- C3, amended. When the parameter `key` is present in Params and its first value
does not parse, `SetFloatFromParam`, `SetInt64FromParam` and `SetBoolFromParam`
return leaving `*loc`, the Builder and Changed as they were, and so does
`SetIntFromParam` for a first value that is not empty.  On the empty first value
`SetIntFromParam` with a non-nil Builder leaves `*loc`, appends the clause
`(key, "")` and sets Changed.  The empty string parses as no integer and no
bool. -/
theorem C3_malformed_values_ignored (fl : FloatLib) (r : RecordParamHelper) (key : String)
    (vs : List String) (hpresent : GoMap.find? r.Params key = some vs) :
    (∀ loc, fl.ParseFloat_64 (Values.Get r.Params key) = none →
      RecordParamHelper.SetFloatFromParam fl loc key (some r) = Except.ok (loc, some r)) ∧
    (∀ loc, ParseInt10 (Values.Get r.Params key) 64 = none →
      RecordParamHelper.SetInt64FromParam loc key (some r) = Except.ok (loc, some r)) ∧
    (∀ loc, ParseBool (Values.Get r.Params key) = none →
      RecordParamHelper.SetBoolFromParam loc key (some r) = Except.ok (loc, some r)) ∧
    (∀ loc, Values.Get r.Params key ≠ "" → ParseInt10 (Values.Get r.Params key) 32 = none →
      RecordParamHelper.SetIntFromParam loc key (some r) = Except.ok (loc, some r)) ∧
    (∀ x b, key ≠ "" → Values.Get r.Params key = "" → r.Builder = some b →
      RecordParamHelper.SetIntFromParam (some x) key (some r) =
        Except.ok (some x,
          some { Params := r.Params, Builder := some (b ++ [(key, GoValue.str "")]),
                 Changed := true })) ∧
    ParseInt10 "" 32 = none ∧ ParseInt10 "" 64 = none ∧ ParseBool "" = none := by
  have hp : r.Params ≠ none := by
    intro h
    rw [h] at hpresent
    simp [GoMap.find?] at hpresent
  refine ⟨?_, ?_, ?_, ?_, ?_, rfl, rfl, by decide⟩
  · intro loc h
    cases loc <;> simp [RecordParamHelper.SetFloatFromParam, hpresent, h]
  · intro loc h
    cases loc <;> simp [RecordParamHelper.SetInt64FromParam, hpresent, h]
  · intro loc h
    cases loc <;> simp [RecordParamHelper.SetBoolFromParam, hpresent, h]
  · intro loc hne h
    cases loc <;> simp [RecordParamHelper.SetIntFromParam, hpresent, h, hne]
  · intro x b hkey hval hb
    simp [RecordParamHelper.SetIntFromParam, hpresent, hval, hb, hkey, hp, UpdateBuilder.Set]

/-- C3, witness: the parameter `n` with the first value `abc`, which is no bool. -/
theorem C3_witness :
    GoMap.find? (sampleHelper "abc" none).Params "n" = some ["abc"] ∧
      ParseBool (Values.Get (sampleHelper "abc" none).Params "n") = none ∧
      RecordParamHelper.SetBoolFromParam (some true) "n" (some (sampleHelper "abc" none)) =
        Except.ok (some true, some (sampleHelper "abc" none)) :=
  ⟨by decide, by decide,
    (C3_malformed_values_ignored sampleFloatLib (sampleHelper "abc" none) "n" ["abc"]
      (by decide)).2.2.1 (some true) (by decide)⟩

/-- C10, the code at the failing input. On a helper with a nil Builder whose
parameter `n` has the empty first value, `SetIntFromParam` dereferences the nil
Builder.  `SetStringFromParam` on the same helper creates the builder first, and
the four other binder methods never panic. -/
theorem C10_SetIntFromParam_nil_builder :
    RecordParamHelper.SetIntFromParam (some 7) "n" (some (sampleHelper "" none)) =
      Except.error Panic.nilPointerDereference ∧
    RecordParamHelper.SetStringFromParam (some "old") "n" (some (sampleHelper "" none)) =
      Except.ok (some "",
        some { Params := sampleParams "", Builder := some [("n", GoValue.str "")],
               Changed := true }) ∧
    (∀ loc key rph, ∃ res, RecordParamHelper.SetStringFromParam loc key rph = Except.ok res) ∧
    (∀ fl loc key rph, ∃ res,
      RecordParamHelper.SetFloatFromParam fl loc key rph = Except.ok res) ∧
    (∀ loc key rph, ∃ res, RecordParamHelper.SetInt64FromParam loc key rph = Except.ok res) ∧
    (∀ loc key rph, ∃ res, RecordParamHelper.SetBoolFromParam loc key rph = Except.ok res) := by
  refine ⟨by decide, by decide, ?_, ?_, ?_, ?_⟩
  · intro loc key rph
    unfold RecordParamHelper.SetStringFromParam
    repeat' split
    all_goals exact ⟨_, rfl⟩
  · intro fl loc key rph
    unfold RecordParamHelper.SetFloatFromParam
    repeat' split
    all_goals first
      | exact ⟨_, rfl⟩
      | (dsimp only; split <;> exact ⟨_, rfl⟩)
  · intro loc key rph
    unfold RecordParamHelper.SetInt64FromParam
    repeat' split
    all_goals first
      | exact ⟨_, rfl⟩
      | (dsimp only; split <;> exact ⟨_, rfl⟩)
  · intro loc key rph
    unfold RecordParamHelper.SetBoolFromParam
    repeat' split
    all_goals first
      | exact ⟨_, rfl⟩
      | (dsimp only; split <;> exact ⟨_, rfl⟩)

/-- C8, counterexample. The first value `3000000000` of the parameter `n` parses
as an int where int is 64 bits wide, yet `SetIntFromParam`, which parses with
bit size 32, leaves `*loc`, the Builder and Changed as they were. -/
theorem C8_counterexample :
    GoMap.HasKey (sampleHelper "3000000000" (some [])).Params "n" ∧
      ParseInt10 (Values.Get (sampleHelper "3000000000" (some [])).Params "n") 64 =
        some 3000000000 ∧
      RecordParamHelper.SetIntFromParam (some 0) "n"
          (some (sampleHelper "3000000000" (some []))) =
        Except.ok (some 0, some (sampleHelper "3000000000" (some []))) := by
  decide

/-- C8, amended. For a non-empty `key`, a non-nil `loc` and non-nil Params: when
`key` is present and its first value parses (as a string, a float64, a signed
32-bit integer for `SetIntFromParam`, an int64, a bool), the method returns with
`*loc` the parsed value, the builder extended by the one clause
`(key, parsed value)` after the earlier clauses (an empty builder is created when
it was nil) and Changed true; when `key` is not present, `*loc`, the Builder and
Changed are as before.  No returning call of a binder method turns Changed from
true to false. -/
theorem C8_binder_sets_clause (fl : FloatLib) (r : RecordParamHelper) (key : String)
    (hkey : key ≠ "") (hparams : r.Params ≠ none) :
    (∀ vs, GoMap.find? r.Params key = some vs →
      (∀ x, RecordParamHelper.SetStringFromParam (some x) key (some r) =
        Except.ok (some (Values.Get r.Params key),
          some (r.setClause key (.str (Values.Get r.Params key))))) ∧
      (∀ x f, fl.ParseFloat_64 (Values.Get r.Params key) = some f →
        RecordParamHelper.SetFloatFromParam fl (some x) key (some r) =
          Except.ok (some f, some (r.setClause key (.float64 f)))) ∧
      (∀ x n, ParseInt10 (Values.Get r.Params key) 32 = some n →
        RecordParamHelper.SetIntFromParam (some x) key (some r) =
          Except.ok (some n, some (r.setClause key (.int64 n)))) ∧
      (∀ x n, ParseInt10 (Values.Get r.Params key) 64 = some n →
        RecordParamHelper.SetInt64FromParam (some x) key (some r) =
          Except.ok (some n, some (r.setClause key (.int64 n)))) ∧
      (∀ x b, ParseBool (Values.Get r.Params key) = some b →
        RecordParamHelper.SetBoolFromParam (some x) key (some r) =
          Except.ok (some b, some (r.setClause key (.bool b))))) ∧
    (GoMap.find? r.Params key = none →
      (∀ x, RecordParamHelper.SetStringFromParam (some x) key (some r) =
        Except.ok (some x, some r)) ∧
      (∀ x, RecordParamHelper.SetFloatFromParam fl (some x) key (some r) =
        Except.ok (some x, some r)) ∧
      (∀ x, RecordParamHelper.SetIntFromParam (some x) key (some r) =
        Except.ok (some x, some r)) ∧
      (∀ x, RecordParamHelper.SetInt64FromParam (some x) key (some r) =
        Except.ok (some x, some r)) ∧
      (∀ x, RecordParamHelper.SetBoolFromParam (some x) key (some r) =
        Except.ok (some x, some r))) ∧
    (∀ v, (r.setClause key v).Builder = some (r.Builder.getD [] ++ [(key, v)]) ∧
      (r.setClause key v).Changed = true ∧ (r.setClause key v).Params = r.Params) ∧
    (r.Changed = true →
      (∀ loc loc2 r2, RecordParamHelper.SetStringFromParam loc key (some r) =
        Except.ok (loc2, some r2) → r2.Changed = true) ∧
      (∀ loc loc2 r2, RecordParamHelper.SetFloatFromParam fl loc key (some r) =
        Except.ok (loc2, some r2) → r2.Changed = true) ∧
      (∀ loc loc2 r2, RecordParamHelper.SetIntFromParam loc key (some r) =
        Except.ok (loc2, some r2) → r2.Changed = true) ∧
      (∀ loc loc2 r2, RecordParamHelper.SetInt64FromParam loc key (some r) =
        Except.ok (loc2, some r2) → r2.Changed = true) ∧
      (∀ loc loc2 r2, RecordParamHelper.SetBoolFromParam loc key (some r) =
        Except.ok (loc2, some r2) → r2.Changed = true)) := by
  refine ⟨?_, ?_, setClause_spec r key, ?_⟩
  · intro vs hvs
    refine ⟨?_, ?_, ?_, ?_, ?_⟩
    · intro x
      simp [RecordParamHelper.SetStringFromParam, hkey, hparams, hvs]
    · intro x f hf
      simp [RecordParamHelper.SetFloatFromParam, hkey, hparams, hvs, hf]
    · intro x n hn
      have hne : Values.Get r.Params key ≠ "" := by
        intro h
        rw [h, parseInt10_empty] at hn
        exact Option.noConfusion hn
      simp [RecordParamHelper.SetIntFromParam, hkey, hparams, hvs, hn, hne]
    · intro x n hn
      simp [RecordParamHelper.SetInt64FromParam, hkey, hparams, hvs, hn]
    · intro x b hb
      simp [RecordParamHelper.SetBoolFromParam, hkey, hparams, hvs, hb]
  · intro habs
    refine ⟨?_, ?_, ?_, ?_, ?_⟩ <;> intro x
    · simp [RecordParamHelper.SetStringFromParam, habs]
    · simp [RecordParamHelper.SetFloatFromParam, habs]
    · simp [RecordParamHelper.SetIntFromParam, habs]
    · simp [RecordParamHelper.SetInt64FromParam, habs]
    · simp [RecordParamHelper.SetBoolFromParam, habs]
  · intro hc
    have hset : ∀ v, (r.setClause key v).Changed = true := fun v => (setClause_spec r key v).2.1
    refine ⟨?_, ?_, ?_, ?_, ?_⟩ <;> intro loc loc2 r2 h
    · cases loc with
      | none =>
        simp only [RecordParamHelper.SetStringFromParam, Except.ok.injEq, Prod.mk.injEq,
          Option.some.injEq] at h
        obtain ⟨_, rfl⟩ := h
        exact hc
      | some x =>
        cases hf : GoMap.find? r.Params key with
        | none =>
          simp [RecordParamHelper.SetStringFromParam, hkey, hparams, hf] at h
          obtain ⟨_, rfl⟩ := h
          exact hc
        | some vs =>
          simp [RecordParamHelper.SetStringFromParam, hkey, hparams, hf] at h
          obtain ⟨_, rfl⟩ := h
          exact hset _
    · cases loc with
      | none =>
        simp only [RecordParamHelper.SetFloatFromParam, Except.ok.injEq, Prod.mk.injEq,
          Option.some.injEq] at h
        obtain ⟨_, rfl⟩ := h
        exact hc
      | some x =>
        cases hf : GoMap.find? r.Params key with
        | none =>
          simp [RecordParamHelper.SetFloatFromParam, hkey, hparams, hf] at h
          obtain ⟨_, rfl⟩ := h
          exact hc
        | some vs =>
          cases hp : fl.ParseFloat_64 (Values.Get r.Params key) with
          | none =>
            simp [RecordParamHelper.SetFloatFromParam, hkey, hparams, hf, hp] at h
            obtain ⟨_, rfl⟩ := h
            exact hc
          | some p =>
            simp [RecordParamHelper.SetFloatFromParam, hkey, hparams, hf, hp] at h
            obtain ⟨_, rfl⟩ := h
            exact hset _
    · cases loc with
      | none =>
        simp only [RecordParamHelper.SetIntFromParam, Except.ok.injEq, Prod.mk.injEq,
          Option.some.injEq] at h
        obtain ⟨_, rfl⟩ := h
        exact hc
      | some x =>
        cases hf : GoMap.find? r.Params key with
        | none =>
          simp [RecordParamHelper.SetIntFromParam, hkey, hparams, hf] at h
          obtain ⟨_, rfl⟩ := h
          exact hc
        | some vs =>
          by_cases hv : Values.Get r.Params key = ""
          · cases hb : r.Builder with
            | none => simp [RecordParamHelper.SetIntFromParam, hkey, hparams, hf, hv, hb] at h
            | some b =>
              simp [RecordParamHelper.SetIntFromParam, hkey, hparams, hf, hv, hb] at h
              obtain ⟨_, rfl⟩ := h
              rfl
          · cases hp : ParseInt10 (Values.Get r.Params key) 32 with
            | none =>
              simp [RecordParamHelper.SetIntFromParam, hkey, hparams, hf, hp, hv] at h
              obtain ⟨_, rfl⟩ := h
              exact hc
            | some p =>
              simp [RecordParamHelper.SetIntFromParam, hkey, hparams, hf, hp, hv] at h
              obtain ⟨_, rfl⟩ := h
              exact hset _
    · cases loc with
      | none =>
        simp only [RecordParamHelper.SetInt64FromParam, Except.ok.injEq, Prod.mk.injEq,
          Option.some.injEq] at h
        obtain ⟨_, rfl⟩ := h
        exact hc
      | some x =>
        cases hf : GoMap.find? r.Params key with
        | none =>
          simp [RecordParamHelper.SetInt64FromParam, hkey, hparams, hf] at h
          obtain ⟨_, rfl⟩ := h
          exact hc
        | some vs =>
          cases hp : ParseInt10 (Values.Get r.Params key) 64 with
          | none =>
            simp [RecordParamHelper.SetInt64FromParam, hkey, hparams, hf, hp] at h
            obtain ⟨_, rfl⟩ := h
            exact hc
          | some p =>
            simp [RecordParamHelper.SetInt64FromParam, hkey, hparams, hf, hp] at h
            obtain ⟨_, rfl⟩ := h
            exact hset _
    · cases loc with
      | none =>
        simp only [RecordParamHelper.SetBoolFromParam, Except.ok.injEq, Prod.mk.injEq,
          Option.some.injEq] at h
        obtain ⟨_, rfl⟩ := h
        exact hc
      | some x =>
        cases hf : GoMap.find? r.Params key with
        | none =>
          simp [RecordParamHelper.SetBoolFromParam, hkey, hparams, hf] at h
          obtain ⟨_, rfl⟩ := h
          exact hc
        | some vs =>
          cases hp : ParseBool (Values.Get r.Params key) with
          | none =>
            simp [RecordParamHelper.SetBoolFromParam, hkey, hparams, hf, hp] at h
            obtain ⟨_, rfl⟩ := h
            exact hc
          | some p =>
            simp [RecordParamHelper.SetBoolFromParam, hkey, hparams, hf, hp] at h
            obtain ⟨_, rfl⟩ := h
            exact hset _

/-- C8, witness: the parameter `n` with the first value `5` on a helper with a nil
Builder. -/
theorem C8_witness :
    "n" ≠ "" ∧ (sampleHelper "5" none).Params ≠ none ∧
      RecordParamHelper.SetIntFromParam (some 0) "n" (some (sampleHelper "5" none)) =
        Except.ok (some 5,
          some { Params := sampleParams "5", Builder := some [("n", GoValue.int64 5)],
                 Changed := true }) :=
  ⟨by decide, by decide,
    ((C8_binder_sets_clause sampleFloatLib (sampleHelper "5" none) "n" (by decide)
      (by decide)).1 ["5"] (by decide)).2.2.1 0 5 (by decide)⟩

end Dynamodb
